import Mathlib

/-!
Verification development for the multi-language static analysis engine of
`RicksCodeAnalyzer_Advanced` (file `advanced_analyzer.py`, class
`AdvancedCodeAnalyzer`).

The Python source is shallowly embedded: every definition below is translated
from the corresponding Python function, keeping the source's names (camel-cased
where Lean requires it).  Machine-relevant remarks:

* Python floats are modelled with `ℚ` (all arithmetic performed by the engine
  is on small exact decimals, so this is faithful up to rounding of
  `round(x, 1)`, noted where it occurs).
* Finding dictionaries carry a `type`, `severity` and 1-based `line`; the
  human-readable `description`/`context` strings are presentational and
  carried nowhere into the logic, so they are omitted from the record.
* Regex scans over raw file content are kept abstract (passed in as the list
  of match positions they produce) where no claim depends on the regex
  semantics itself; the line/window level algorithms are embedded in full.
-/

namespace RicksAnalyzer

/-- One reported issue, as appended to `self.results[...]` per file:
`{'type': ..., 'severity': ..., 'line': ...}` (description/context omitted,
see module comment). -/
structure Finding where
  ftype : String
  severity : String
  line : Nat
  deriving DecidableEq, Repr

/-- One entry of `self.function_metrics[file]`
(`{'name', 'params', 'lines', 'complexity', 'line'}`). -/
structure FuncMetric where
  name : String
  params : Nat
  lines : Nat
  complexity : Nat
  line : Nat
  deriving DecidableEq, Repr

/-! ### The Python AST, as far as the analyzer distinguishes node classes

`_analyze_python_functions` / `_check_python_nesting` dispatch on
`isinstance` against: `If, While, For, AsyncFor, With, AsyncWith, Try,
ExceptHandler` (a `Try`'s handlers appear among its children), `BoolOp`
with op `And` or `Or`, `FunctionDef`/`AsyncFunctionDef` (treated
identically by the source, so merged), `Import`/`ImportFrom`, and
everything else.  Each AST object is modelled as its class kind plus its
`iter_child_nodes` list (in field order), plus the attributes the analyzer
reads. -/

inductive PyKind where
  | kIf | kWhile | kFor | kAsyncFor | kWith | kAsyncWith | kTry | kExcept
  | kBoolAnd | kBoolOr | kOther
  deriving DecidableEq, Repr

inductive PyNode where
  /-- A non-function statement/expression node: its class kind, its `lineno`,
  and its `ast.iter_child_nodes` in order.  For `kBoolAnd`/`kBoolOr` the
  children are the `values` of the `BoolOp`. -/
  | node (kind : PyKind) (lineno : Nat) (children : List PyNode)
  /-- Embeds `FunctionDef`/`AsyncFunctionDef`: `name`, `lineno`, `end_lineno`
  (0 models the attribute being absent, as in `getattr(node, 'end_lineno', 0)`),
  the sizes of `args.args`, `args.posonlyargs`, `args.kwonlyargs`, the presence
  of `args.vararg` / `args.kwarg`, the line count `ast.unparse` would report
  (`none` = unavailable or raising, in which case the source keeps its body
  estimate), and the body statements. -/
  | functionDef (name : String) (lineno endLineno argsCount posonlyCount kwonlyCount : Nat)
      (hasVararg hasKwarg : Bool) (unparseLines : Option Nat) (body : List PyNode)
  /-- Embeds `ast.Import` with the names it binds. -/
  | importStmt (lineno : Nat) (names : List String)
  /-- Embeds `ast.ImportFrom` with its (possibly absent) `module`. -/
  | importFrom (lineno : Nat) (module : Option String)

mutual

/-- Embeds `ast.walk(node)`: the node and all of its descendants.  (The source's
`ast.walk` yields them in breadth-first order; this embedding uses depth-first
preorder.  Every use below is order-insensitive — sums, counts and
membership — so only the multiset of visited nodes matters.) -/
def pyWalk : PyNode → List PyNode
  | .node k l cs => .node k l cs :: pyWalkList cs
  | .functionDef n l e a p kw va kwa up body =>
      .functionDef n l e a p kw va kwa up body :: pyWalkList body
  | .importStmt l ns => [.importStmt l ns]
  | .importFrom l m => [.importFrom l m]

def pyWalkList : List PyNode → List PyNode
  | [] => []
  | x :: xs => pyWalk x ++ pyWalkList xs

end

/-- The increment contributed by one walked node in the complexity loop of
`_analyze_python_functions`:
`isinstance(inner_node, (ast.If, ast.While, ast.For, ast.Try, ast.AsyncFor))`
adds 1, `ast.BoolOp` whose op is `ast.And` adds `len(values) - 1`, everything
else (including `With`, `ExceptHandler` and `or`-chains) adds 0. -/
def complexityIncr : PyNode → Nat
  | .node .kIf _ _ => 1
  | .node .kWhile _ _ => 1
  | .node .kFor _ _ => 1
  | .node .kTry _ _ => 1
  | .node .kAsyncFor _ _ => 1
  | .node .kBoolAnd _ values => values.length - 1
  | _ => 0

/-- Embeds `complexity = 1; for inner_node in ast.walk(node): ...` — the cyclomatic
complexity the source records for a function node. -/
def funcComplexity (node : PyNode) : Nat :=
  1 + ((pyWalk node).map complexityIncr).sum

/-- Embeds `isinstance(node, (ast.If, ast.For, ast.While, ast.With, ast.Try,
ast.AsyncFor, ast.AsyncWith))` — the node kinds that increment the nesting
depth in `_check_python_nesting`. -/
def isNestingKind : PyKind → Bool
  | .kIf | .kFor | .kWhile | .kWith | .kTry | .kAsyncFor | .kAsyncWith => true
  | _ => false

mutual

/-- Embeds `_check_python_nesting(node, func_name, file_path, current_depth)`:
increments the depth at each control structure, appends a
`deep_nesting`/`high` finding whenever the incremented depth exceeds 4, and
recurses over `ast.iter_child_nodes(node)` with the (possibly incremented)
depth. -/
def checkPythonNesting : PyNode → Nat → List Finding
  | .node k l cs, depth =>
    if isNestingKind k then
      (if depth + 1 > 4 then [⟨"deep_nesting", "high", l⟩] else [])
        ++ checkPythonNestingList cs (depth + 1)
    else
      checkPythonNestingList cs depth
  | .functionDef _ _ _ _ _ _ _ _ _ body, depth => checkPythonNestingList body depth
  | .importStmt _ _, _ => []
  | .importFrom _ _, _ => []

def checkPythonNestingList : List PyNode → Nat → List Finding
  | [], _ => []
  | x :: xs, depth => checkPythonNesting x depth ++ checkPythonNestingList xs depth

end

/-- Is this walked node a `FunctionDef`/`AsyncFunctionDef`? -/
def isFunctionDef : PyNode → Bool
  | .functionDef _ _ _ _ _ _ _ _ _ _ => true
  | _ => false

/-- The per-function block of `_analyze_python_functions`: parameter count,
robust line count, smells (`too_many_parameters`, `long_function`,
`high_complexity`, in source order), the stored metric record, and the
`_check_python_nesting` findings run last. -/
def analyzeFunctionDef (name : String) (lineno endLineno argsCount posonlyCount kwonlyCount : Nat)
    (hasVararg hasKwarg : Bool) (unparseLines : Option Nat) (body : List PyNode) :
    FuncMetric × List Finding :=
  let paramsCount := argsCount + posonlyCount + kwonlyCount
      + (if hasVararg then 1 else 0) + (if hasKwarg then 1 else 0)
  -- `if start_line and end_line:` — both truthy means both nonzero; otherwise
  -- the body-size estimate `len(node.body) + 2`, overridden by
  -- `len(ast.unparse(node).split('\n'))` when `unparse` is available and does
  -- not raise (modelled by `unparseLines`).
  let linesOfCode :=
    if lineno ≠ 0 ∧ endLineno ≠ 0 then endLineno - lineno + 1
    else (unparseLines.getD (body.length + 2))
  let node := PyNode.functionDef name lineno endLineno argsCount posonlyCount kwonlyCount
      hasVararg hasKwarg unparseLines body
  let complexity := funcComplexity node
  let smells :=
    (if paramsCount > 5 then [⟨"too_many_parameters", "medium", lineno⟩] else [])
      ++ (if linesOfCode > 50 then [⟨"long_function", "medium", lineno⟩] else [])
      ++ (if complexity > 10 then [⟨"high_complexity", "medium", lineno⟩] else [])
  (⟨name, paramsCount, linesOfCode, complexity, lineno⟩,
    smells ++ checkPythonNesting node 0)

/-- Dispatch of the walk filter `isinstance(node, (ast.FunctionDef,
ast.AsyncFunctionDef))` plus the per-function body above. -/
def analyzeFuncNode : PyNode → List FuncMetric × List Finding
  | .functionDef n l e a p kw va kwa up body =>
    let r := analyzeFunctionDef n l e a p kw va kwa up body
    ([r.1], r.2)
  | _ => ([], [])

/-- Embeds `_analyze_python_functions(tree, file_path)`: walk the tree, analyze every
function/method definition found (including nested ones), collecting the
metric records and the smell findings it appends to
`self.results['code_smells'][file_path]`. -/
def analyzePythonFunctions (tree : List PyNode) : List FuncMetric × List Finding :=
  let rs := ((pyWalkList tree).filter isFunctionDef).map analyzeFuncNode
  ((rs.map Prod.fst).flatten, (rs.map Prod.snd).flatten)

/-- Embeds `_analyze_python_imports(tree, file_path)`: walk the tree, adding every
`ast.Import` name and every non-empty `ast.ImportFrom` module to this file's
`import_graph` / `dependencies` entries. -/
def analyzePythonImports (tree : List PyNode) : List String :=
  (pyWalkList tree).flatMap fun n =>
    match n with
    | .importStmt _ names => names
    | .importFrom _ (some m) => [m]
    | _ => []

/-! ### `_analyze_python_file`: the parse / fallback cascade

`ast.parse` either raises `SyntaxError` or yields a tree; afterwards
`_analyze_python_imports` runs to completion and `_analyze_python_functions`
walks the collected function definitions one by one and may raise
(`AttributeError` — the source's own comment: "This might raise
AttributeError", e.g. `node.args.posonlyargs` on older interpreters — or any
other exception).  The embedding keeps the raw content abstract and records,
per file, the parse outcome and what the two regex passes
(`_apply_regex_patterns(PYTHON_ANTI_PATTERNS, ...)` on success,
`_analyze_python_with_regex` on failure) would contribute. -/

/-- Which exception class interrupted the tree walk. -/
inductive WalkErr where
  /-- Embeds `except AttributeError` — handled as an "AST feature error". -/
  | attrError
  /-- Embeds `except Exception` — handled as an "unexpected AST processing error". -/
  | otherError
  deriving DecidableEq, Repr

/-- Outcome of `ast.parse(content)` together with how far the function walk
got.  `walkErr = some (k, e)` models `_analyze_python_functions` raising `e`
after having fully processed the first `k` function definitions it walked
(imports were already collected in full, since `_analyze_python_imports`
runs first and raises nothing). -/
inductive ParseOutcome where
  | syntaxError (lineno : Nat)
  | parsed (tree : List PyNode) (walkErr : Option (Nat × WalkErr))

/-- The per-file slices of the analyzer's mutable state touched by
`_analyze_python_file`: `self.import_graph[file]`,
`self.results['dependencies'][file]`, `self.results['code_smells'][file]`,
`self.results['style_issues'][file]`, `self.function_metrics[file]`.
(The source stores the first two as sets; lists preserve strictly more
information and no claim depends on multiplicity.) -/
structure PyFileState where
  importGraph : List String
  dependencies : List String
  codeSmells : List Finding
  styleIssues : List Finding
  functionMetrics : List FuncMetric
  deriving DecidableEq, Repr

def PyFileState.empty : PyFileState := ⟨[], [], [], [], []⟩

/-- Embeds `_analyze_python_with_regex(file_path, content)`: applies the
`PYTHON_ANTI_PATTERNS` regexes (adding code smells) and the import-estimating
regex (adding dependencies).  The matches are content-dependent and passed in
abstractly. -/
def analyzePythonWithRegex (fallbackSmells : List Finding) (fallbackDeps : List String)
    (st : PyFileState) : PyFileState :=
  { st with
      codeSmells := st.codeSmells ++ fallbackSmells
      dependencies := st.dependencies ++ fallbackDeps }

/-- The prefix of the function walk that completed before an exception:
the source processes function definitions one at a time, so the metrics and
smells of the first `k` walked functions are already appended when the
exception propagates. -/
def analyzePythonFunctionsPrefix (tree : List PyNode) (k : Nat) :
    List FuncMetric × List Finding :=
  let rs := (((pyWalkList tree).filter isFunctionDef).take k).map analyzeFuncNode
  ((rs.map Prod.fst).flatten, (rs.map Prod.snd).flatten)

/-- Embeds `_analyze_python_file(file_path, content)`: on a successful parse run
the import and function walks and the anti-pattern regexes; on `SyntaxError`
append one `syntax_error`/`warning` style finding and fall back to regex; on
an `AttributeError` during the walk append one `ast_feature_error`/`warning`
style finding (line 1) and fall back; on any other exception append one
`ast_processing_error`/`error` style finding (line 1) and fall back.
Mutations performed before the exception are kept. -/
def analyzePythonFile (outcome : ParseOutcome) (antiPatternFindings fallbackSmells : List Finding)
    (fallbackDeps : List String) (st : PyFileState) : PyFileState :=
  match outcome with
  | .syntaxError lineno =>
    analyzePythonWithRegex fallbackSmells fallbackDeps
      { st with styleIssues := st.styleIssues ++ [⟨"syntax_error", "warning", lineno⟩] }
  | .parsed tree walkErr =>
    let imports := analyzePythonImports tree
    let st1 := { st with
        importGraph := st.importGraph ++ imports
        dependencies := st.dependencies ++ imports }
    match walkErr with
    | none =>
      let fr := analyzePythonFunctions tree
      { st1 with
          functionMetrics := st1.functionMetrics ++ fr.1
          codeSmells := st1.codeSmells ++ fr.2 ++ antiPatternFindings }
    | some (k, e) =>
      let fr := analyzePythonFunctionsPrefix tree k
      let st2 := { st1 with
          functionMetrics := st1.functionMetrics ++ fr.1
          codeSmells := st1.codeSmells ++ fr.2 }
      let failFinding : Finding :=
        match e with
        | .attrError => ⟨"ast_feature_error", "warning", 1⟩
        | .otherError => ⟨"ast_processing_error", "error", 1⟩
      analyzePythonWithRegex fallbackSmells fallbackDeps
        { st2 with styleIssues := st2.styleIssues ++ [failFinding] }

/-- Did `_analyze_python_file` take one of its three failure branches? -/
def parseFailed : ParseOutcome → Bool
  | .syntaxError _ => true
  | .parsed _ (some _) => true
  | .parsed _ none => false

/-! ### Python `str` primitives

Implemented structurally over the underlying character list so that every
concrete evaluation below reduces inside the kernel (Python `str` semantics
is character-sequence based, so this is the natural reading; whitespace and
case predicates use the core `Char` classifiers, an ASCII reading of
Python's Unicode tables that is exact on all inputs appearing in the
claims). -/

/-- Embeds `s.strip()`. -/
def pyStrip (s : String) : String :=
  ⟨((s.data.dropWhile Char.isWhitespace).reverse.dropWhile Char.isWhitespace).reverse⟩

/-- Does `pat` occur as a contiguous sublist starting anywhere in `s`? -/
def subSearch (pat : List Char) : List Char → Bool
  | [] => pat.isPrefixOf []
  | c :: rest => pat.isPrefixOf (c :: rest) ∨ subSearch pat rest

/-- Embeds `pat in s`. -/
def strContains (s pat : String) : Bool := subSearch pat.data s.data

/-- Embeds `s[s.index(pat) + len(pat):]` — everything after the first occurrence of
`pat` (used only when `pat` occurs in `s`). -/
def strAfterFirstAux (pat : List Char) : List Char → List Char
  | [] => []
  | c :: rest =>
    if pat.isPrefixOf (c :: rest) then (c :: rest).drop pat.length
    else strAfterFirstAux pat rest

def strAfterFirst (s pat : String) : String := ⟨strAfterFirstAux pat.data s.data⟩

/-- Embeds `s.startswith(pre)`. -/
def strStartsWith (s pre : String) : Bool := pre.data.isPrefixOf s.data

/-- Embeds `sep.join(ls)`. -/
def strJoin (sep : String) (ls : List String) : String :=
  ⟨List.intercalate sep.data (ls.map String.data)⟩

/-- Embeds `len(s)` (number of characters). -/
def strLen (s : String) : Nat := s.data.length

/-- Embeds `s[:n]`. -/
def strTake (s : String) (n : Nat) : String := ⟨s.data.take n⟩

/-- Embeds `s.lower()`. -/
def strToLower (s : String) : String := ⟨s.data.map Char.toLower⟩

/-! ### The performance-issue section of `_analyze_generic`

The `PERFORMANCE_ISSUES` table and the loop
`for issue_name, issue_data in PERFORMANCE_ISSUES.items(): ...` followed — at
the *same indentation level as the loop*, i.e. after it — by
`if issue_name == 'nested_loops': ...`.  The loop variable is threaded
explicitly so that its value after the iteration (the last key of the dict,
in insertion order) is exactly what the trailing `if` tests. -/

/-- One entry of the `PERFORMANCE_ISSUES` table: severity, whether a
`'regex'` key is present, and the `'languages'` list. -/
structure PerfRule where
  severity : String
  hasRegex : Bool
  languages : List String
  deriving DecidableEq, Repr

/-- Embeds `PERFORMANCE_ISSUES` in dict insertion order (`inefficient_loop`,
`nested_loops` — which has no regex — then `multiple_dom_access`). -/
def PERFORMANCE_ISSUES : List (String × PerfRule) :=
  [("inefficient_loop", ⟨"medium", true, ["python"]⟩),
   ("nested_loops", ⟨"high", false, ["all"]⟩),
   ("multiple_dom_access", ⟨"medium", true, ["javascript"]⟩)]

/-- The body of the rule loop for one `(issue_name, issue_data)`: skip when a
language list is present, lacks `'all'` and lacks this (lower-cased)
language; otherwise, when a regex is present, one finding per match.
`ruleMatches name` abstracts `re.finditer(issue_data['regex'], content)` as
the 1-based line numbers of its matches. -/
def perfRuleFindings (ruleMatches : String → List Nat) (language : String)
    (name : String) (r : PerfRule) : List Finding :=
  if ¬ ("all" ∈ r.languages) ∧ ¬ (strToLower language ∈ r.languages.map strToLower) then []
  else if r.hasRegex then
    (ruleMatches name).map fun l => ⟨name, r.severity, l⟩
  else []

/-- The rule loop itself, returning the findings it appended to
`self.results['performance_issues'][file_path]` *and* the value the loop
variable `issue_name` holds once the loop has finished. -/
def perfLoop (ruleMatches : String → List Nat) (language : String) :
    List (String × PerfRule) → String → String × List Finding
  | [], lastName => (lastName, [])
  | (name, r) :: rest, _ =>
    let fs := perfRuleFindings ruleMatches language name r
    let rec_ := perfLoop ruleMatches language rest name
    (rec_.1, fs ++ rec_.2)

/-- The performance section of `_analyze_generic(file_path, content,
language)`: run the rule loop over `PERFORMANCE_ISSUES`, then the trailing
`if issue_name == 'nested_loops':` block, which would emit one
`nested_loops`/`high` finding per outer/inner loop pair found by the
block-scan heuristic.  `nestedPairs` abstracts that content scan as the
(outer line, inner line) pairs it would find. -/
def analyzeGenericPerformance (language : String) (ruleMatches : String → List Nat)
    (nestedPairs : List (Nat × Nat)) : List Finding :=
  let loopResult := perfLoop ruleMatches language PERFORMANCE_ISSUES ""
  let nestedFindings :=
    if loopResult.1 = "nested_loops" then
      nestedPairs.map fun p => (⟨"nested_loops", "high", p.1⟩ : Finding)
    else []
  loopResult.2 ++ nestedFindings

/-! ### `_check_duplicated_code` / `_analyze_duplicated_code` -/

/-- The `comment_markers` table of `_check_duplicated_code` (it differs from
the one in `_analyze_generic`: no Swift/Go/Rust entries), with the default
`['#', '//']`. -/
def dupCommentMarkers (language : String) : List String :=
  if language = "Python" then ["#"]
  else if language = "JavaScript" then ["//", "/*"]
  else if language = "Java" then ["//", "/*"]
  else if language = "C" then ["//", "/*"]
  else if language = "C++" then ["//", "/*"]
  else if language = "C#" then ["//", "/*"]
  else if language = "Ruby" then ["#"]
  else if language = "PHP" then ["//", "/*", "#"]
  else ["#", "//"]

/-- Embeds `language in ['JavaScript', 'Java', 'C', 'C++', 'C#', 'PHP']` — the
languages whose `/* ... */` block comments `_check_duplicated_code` tracks. -/
def dupBlockCommentLang (language : String) : Bool :=
  language ∈ ["JavaScript", "Java", "C", "C++", "C#", "PHP"]

/-- The body of the cleaning loop of `_check_duplicated_code` for one line:
skip blank lines; track `/* ... */` state (entering when `'/*'` occurs
without a closing `'*/'` after it, leaving — and skipping the line — on a
closing `'*/'`); skip lines starting with a comment marker or inside a block
comment; otherwise keep the stripped line. -/
def dupCleanStep (isBrace : Bool) (markers : List String)
    (st : Bool × List String) (line : String) : Bool × List String :=
  let inBlock := st.1
  let acc := st.2
  let ls := pyStrip line
  if ls = "" then (inBlock, acc)
  else
    let inBlock1 :=
      if isBrace ∧ strContains ls "/*" ∧ ¬ strContains (strAfterFirst ls "/*") "*/" then
        true
      else inBlock
    if isBrace ∧ strContains ls "*/" ∧ inBlock1 then (false, acc)
    else
      let isComment := markers.any fun m => strStartsWith ls m
      if isComment ∨ inBlock1 then (inBlock1, acc)
      else (inBlock1, acc ++ [ls])

/-- The `clean_lines` list `_check_duplicated_code` builds: stripped lines
with blanks and comments removed. -/
def dupCleanLines (language : String) (lines : List String) : List String :=
  (lines.foldl (dupCleanStep (dupBlockCommentLang language) (dupCommentMarkers language))
    (false, [])).2

/-- Embeds `[^\s\d\W]` — a word character (`\w`) that is not a digit, i.e. a letter
or underscore.  (ASCII reading of Python's Unicode-aware `\w`; the predicate
only filters which windows get hashed, which no claim depends on.) -/
def isWordNonDigit (c : Char) : Bool := c.isAlpha ∨ c = '_'

/-- Embeds `re.search(r'[^\s\d\W]{3,}', block)`: some run of 3 consecutive
letter/underscore characters exists. -/
def hasWordRun3 : List Char → Bool
  | a :: b :: c :: rest =>
    (isWordNonDigit a ∧ isWordNonDigit b ∧ isWordNonDigit c) ∨ hasWordRun3 (b :: c :: rest)
  | _ => false

/-- One record of `self.duplicated_blocks[block_hash]`:
`{'file', 'start_line', 'end_line', 'content'}`. -/
structure DupOcc where
  file : String
  startLine : Nat
  endLine : Nat
  content : String
  deriving DecidableEq, Repr

/-- Embeds `_check_duplicated_code(file_path, content, language)`: strip comments and
blanks, then slide a `min_block_size = 5` window over the cleaned lines,
skipping windows whose joined text is shorter than 100 characters or has no
3-letter word run, and record `(hash(block), occurrence)` for the rest.
`h` abstracts Python's per-process `hash` on strings.  Python's
`range(len(clean_lines) - min_block_size + 1)` is written `+ 1 - 5` so that
its emptiness for fewer than 5 clean lines carries over to `ℕ`. -/
def checkDuplicatedCode (h : String → Int) (filePath language : String)
    (lines : List String) : List (Int × DupOcc) :=
  let clean := dupCleanLines language lines
  (List.range (clean.length + 1 - 5)).filterMap fun i =>
    let block := strJoin "\n" ((clean.drop i).take 5)
    if strLen block < 100 ∨ ¬ hasWordRun3 block.data then none
    else some (h block, ⟨filePath, i + 1, i + 5, block⟩)

/-- Embeds `self.duplicated_blocks` is a `defaultdict(list)`: appending to the entry
of an existing key, or adding a new key at the end (dict insertion order). -/
def insertBlock : List (Int × List DupOcc) → Int × DupOcc → List (Int × List DupOcc)
  | [], p => [(p.1, [p.2])]
  | (k0, os) :: rest, p =>
    if k0 = p.1 then (k0, os ++ [p.2]) :: rest else (k0, os) :: insertBlock rest p

/-- The accumulation of `_check_duplicated_code` over every analyzed file
(each file is a `(path, language, lines)` triple), in file order. -/
def scanFilesForDuplicates (h : String → Int)
    (files : List (String × String × List String)) : List (Int × List DupOcc) :=
  files.foldl (fun m f => (checkDuplicatedCode h f.1 f.2.1 f.2.2).foldl insertBlock m) []

/-- One location dict of a reported duplicate group
(`{'file_path', 'start_line', 'end_line'}`). -/
structure DupLoc where
  filePath : String
  startLine : Nat
  endLine : Nat
  deriving DecidableEq, Repr

/-- One reported duplicate group
(`{'lines', 'tokens', 'files', 'code_snippet'}`). -/
structure DupGroup where
  lines : Nat
  tokens : Nat
  files : List DupLoc
  codeSnippet : String
  deriving DecidableEq, Repr

/-- Embeds `len(re.findall(r'\w+', content))` — the number of maximal word-character
runs (ASCII reading, as above). -/
def countWordRuns (s : String) : Nat :=
  go s.data false 0
where
  go : List Char → Bool → Nat → Nat
    | [], _, n => n
    | c :: rest, inRun, n =>
      if c.isAlphanum ∨ c = '_' then go rest true (if inRun then n else n + 1)
      else go rest false n

/-- Embeds `content_sample[:300] + ('...' if len(content_sample) > 300 else '')`. -/
def codeSnippet (content : String) : String :=
  (strTake content 300) ++ (if strLen content > 300 then "..." else "")

/-- The inner loop of `_analyze_duplicated_code` over one hash group's
occurrences: keep an occurrence only when its `(file, start_line)` pair is
not in `reported_locations` yet, marking it reported as soon as it is kept.
Returns the built location list and the updated `reported_locations`. -/
def buildLocations : List DupOcc → List (String × Nat) → List DupLoc × List (String × Nat)
  | [], reported => ([], reported)
  | occ :: rest, reported =>
    if (occ.file, occ.startLine) ∈ reported then buildLocations rest reported
    else
      let r := buildLocations rest (reported ++ [(occ.file, occ.startLine)])
      (⟨occ.file, occ.startLine, occ.endLine⟩ :: r.1, r.2)

/-- The `duplicate_code` smells appended per reported group: one per distinct
file (`files_smelled_for_this_block`), against the first kept location's
start line for that file. -/
def groupSmellsAux : List DupLoc → List String → List (String × Finding)
  | [], _ => []
  | l :: rest, seen =>
    if l.filePath ∈ seen then groupSmellsAux rest seen
    else (l.filePath, ⟨"duplicate_code", "high", l.startLine⟩)
      :: groupSmellsAux rest (seen ++ [l.filePath])

def groupSmells (locs : List DupLoc) : List (String × Finding) := groupSmellsAux locs []

/-- The main loop of `_analyze_duplicated_code` over
`self.duplicated_blocks.items()`, threading `reported_locations` and
accumulating `final_duplicates` and the per-file `duplicate_code` smells. -/
def analyzeDuplicatedCodeCore :
    List (Int × List DupOcc) → List (String × Nat) → List DupGroup × List (String × Finding)
  | [], _ => ([], [])
  | (_, occs) :: rest, reported =>
    match occs with
    | rep :: _ :: _ =>
      -- `len(occurrences) > 1`; `representative_occurrence = occurrences[0]`
      let blockLineCount := rep.endLine - rep.startLine + 1
      if blockLineCount < 5 then analyzeDuplicatedCodeCore rest reported
      else
        let built := buildLocations occs reported
        if built.1.length > 1 then
          let g : DupGroup :=
            ⟨blockLineCount, countWordRuns rep.content, built.1, codeSnippet rep.content⟩
          let r := analyzeDuplicatedCodeCore rest built.2
          (g :: r.1, groupSmells built.1 ++ r.2)
        else
          let r := analyzeDuplicatedCodeCore rest built.2
          (r.1, r.2)
    | _ => analyzeDuplicatedCodeCore rest reported

/-- Embeds `final_duplicates.sort(key=lambda x: (x['lines'], x['tokens']),
reverse=True)` — descending lexicographic comparison on (lines, tokens). -/
def dupSortRel (a b : DupGroup) : Prop :=
  b.lines < a.lines ∨ (a.lines = b.lines ∧ b.tokens ≤ a.tokens)

instance : DecidableRel dupSortRel := fun a b => by
  unfold dupSortRel; exact inferInstance

/-- Embeds `_analyze_duplicated_code()`: process every hash group, then sort the
reported groups.  Returns (`self.results['duplicated_code']`, the
`duplicate_code` smells appended to `self.results['code_smells']`, keyed by
file path).  (Python's `list.sort` is a stable sort, and a stable sort's
output is uniquely determined by the comparison, so `insertionSort` — which
inserts earlier elements in front of later equal-keyed ones — produces the
identical list.) -/
def analyzeDuplicatedCode (groups : List (Int × List DupOcc)) :
    List DupGroup × List (String × Finding) :=
  let r := analyzeDuplicatedCodeCore groups []
  (r.1.insertionSort dupSortRel, r.2)

/-! ### `_calculate_project_metrics` -/

/-- One entry of `self.file_metrics` (per analyzed file):
`{'loc', 'comment_lines', 'comment_density', 'avg_line_length'}`. -/
structure FileMetric where
  loc : Nat
  commentLines : Nat
  commentDensity : ℚ
  avgLineLength : ℚ
  deriving DecidableEq, Repr

/-- Embeds `issue_weights.get(issue.get('severity', 'medium'), 2)` over the table
`{'critical': 8, 'high': 4, 'medium': 2, 'low': 1}` — used for code smells
and performance issues. -/
def issueWeightDefault2 (severity : String) : ℚ :=
  if severity = "critical" then 8
  else if severity = "high" then 4
  else if severity = "medium" then 2
  else if severity = "low" then 1
  else 2

/-- Embeds `issue_weights.get(issue.get('severity', 'high'), 4)` — the lookup used
for security issues, whose fallback weight is 4. -/
def issueWeightDefault4 (severity : String) : ℚ :=
  if severity = "critical" then 8
  else if severity = "high" then 4
  else if severity = "medium" then 2
  else if severity = "low" then 1
  else 4

/-- The technical-debt accumulation of `_calculate_project_metrics`
(`total_debt_hours`): the three nested `for issues in ...: for issue in
issues:` loops over code smells, security issues (each weight `* 1.5`) and
performance issues — `style_issues` is not iterated — plus
`len(self.results['duplicated_code']) * 3`. -/
def techDebtHours (codeSmells securityIssues performanceIssues : List (List Finding))
    (dupCount : Nat) : ℚ :=
  let t1 := codeSmells.foldl
    (fun acc issues => issues.foldl (fun a i => a + issueWeightDefault2 i.severity) acc) 0
  let t2 := securityIssues.foldl
    (fun acc issues => issues.foldl (fun a i => a + issueWeightDefault4 i.severity * (3/2)) acc) t1
  let t3 := performanceIssues.foldl
    (fun acc issues => issues.foldl (fun a i => a + issueWeightDefault2 i.severity) acc) t2
  t3 + 3 * dupCount

/-- Embeds `round(x, 1)` on the exact rational value.  (Python rounds halves to even
on the binary float; the two agree away from exact half-tenths, and every
claim touching this value concerns an exact multiple of one tenth.) -/
def roundTo1 (q : ℚ) : ℚ := (round (q * 10) : ℤ) / 10

/-- The banding of the maintainability index
(`>= 80` Excellent, `>= 60` Good, `>= 40` Fair, `>= 20` Poor, else Very Poor). -/
def maintainabilityRatingOf (index : ℚ) : String :=
  if index ≥ 80 then "Excellent"
  else if index ≥ 60 then "Good"
  else if index ≥ 40 then "Fair"
  else if index ≥ 20 then "Poor"
  else "Very Poor"

/-- Embeds `self.results['complexity_metrics']` as populated by
`_calculate_project_metrics`. -/
structure ProjectMetrics where
  totalLinesOfCode : Nat
  totalCommentLines : Nat
  commentDensity : ℚ
  avgLineLength : ℚ
  codeSmellCount : Nat
  securityIssueCount : Nat
  performanceIssueCount : Nat
  styleIssueCount : Nat
  avgFunctionComplexity : ℚ
  avgFunctionSize : ℚ
  avgFunctionParams : ℚ
  duplicatedCodeBlocks : Nat
  maintainabilityIndex : ℚ
  maintainabilityRating : String
  technicalDebtHours : ℚ
  technicalDebtDays : ℚ
  deriving DecidableEq, Repr

/-- Embeds `_calculate_project_metrics()`.  Inputs are the per-file values the method
reads from the analyzer state: `self.file_metrics.values()`, the per-file
finding lists of the four result categories, `self.function_metrics`
(per-file collections of function records) and
`len(self.results['duplicated_code'])`.  `if not self.file_metrics: return`
leaves `complexity_metrics` empty — modelled as `none`: no record is
produced. -/
def calcProjectMetrics (fileMetrics : List FileMetric)
    (codeSmells securityIssues performanceIssues styleIssues : List (List Finding))
    (functionMetrics : List (List FuncMetric)) (dupCount : Nat) : Option ProjectMetrics :=
  if fileMetrics.isEmpty then none
  else
    let totalLoc : Nat := (fileMetrics.map FileMetric.loc).sum
    let totalCommentLines : Nat := (fileMetrics.map FileMetric.commentLines).sum
    let avgCommentDensity : ℚ :=
      if totalLoc > 0 then (totalCommentLines : ℚ) / (totalLoc : ℚ) else 0
    let avgLineLength : ℚ :=
      if totalLoc > 0 then
        (fileMetrics.map fun m => m.avgLineLength * (m.loc : ℚ)).sum / (totalLoc : ℚ)
      else 0
    let codeSmellCount := (codeSmells.map List.length).sum
    let securityIssueCount := (securityIssues.map List.length).sum
    let performanceIssueCount := (performanceIssues.map List.length).sum
    let styleIssueCount := (styleIssues.map List.length).sum
    let allFunctions := functionMetrics.flatten
    let avgFunctionComplexity : ℚ :=
      if allFunctions.isEmpty then 0
      else ((allFunctions.map fun f => (f.complexity : ℚ)).sum) / (allFunctions.length : ℚ)
    let avgFunctionSize : ℚ :=
      if allFunctions.isEmpty then 0
      else ((allFunctions.map fun f => (f.lines : ℚ)).sum) / (allFunctions.length : ℚ)
    let avgFunctionParams : ℚ :=
      if allFunctions.isEmpty then 0
      else ((allFunctions.map fun f => (f.params : ℚ)).sum) / (allFunctions.length : ℚ)
    -- maintainability = 171 - 5.2*(v-1) - 0.23*g - 16.2*(l/1000) + 50*cm,
    -- stored as min(100, max(0, maintainability))
    let v := avgFunctionComplexity
    let g := avgLineLength
    let l : ℚ := (totalLoc : ℚ)
    let cm := avgCommentDensity
    let maintainability : ℚ := 171 - 5.2 * (v - 1) - 0.23 * g - 16.2 * (l / 1000) + 50 * cm
    let index := min 100 (max 0 maintainability)
    let debtHours := techDebtHours codeSmells securityIssues performanceIssues dupCount
    some {
      totalLinesOfCode := totalLoc
      totalCommentLines := totalCommentLines
      commentDensity := avgCommentDensity
      avgLineLength := avgLineLength
      codeSmellCount := codeSmellCount
      securityIssueCount := securityIssueCount
      performanceIssueCount := performanceIssueCount
      styleIssueCount := styleIssueCount
      avgFunctionComplexity := avgFunctionComplexity
      avgFunctionSize := avgFunctionSize
      avgFunctionParams := avgFunctionParams
      duplicatedCodeBlocks := dupCount
      maintainabilityIndex := index
      maintainabilityRating := maintainabilityRatingOf index
      technicalDebtHours := debtHours
      technicalDebtDays := roundTo1 (debtHours / 8) }

/-! ### `analyze_project`: the full pipeline

Per-file work whose innards are embedded above (the Python structural pass,
the performance section, the duplicate window scan, the aggregate metrics)
is composed here; the remaining regex sweeps of `_analyze_generic` /
`_analyze_js_file` are deterministic functions of the file content and enter
as per-file input data, exactly as the abstract oracles above. -/

/-- Everything `analyze_project` derives from one candidate file before the
project-wide post-processing: its path, language tag, raw lines, the Python
parse outcome (`none` for non-Python files), the outputs of the abstracted
regex passes, and the line metrics `_analyze_generic` stores in
`self.file_metrics`. -/
structure FileInput where
  path : String
  language : String
  lines : List String
  parse : Option ParseOutcome
  antiPatternFindings : List Finding
  fallbackSmells : List Finding
  fallbackDeps : List String
  genericSmells : List Finding
  securityFindings : List Finding
  longLineFindings : List Finding
  perfRuleMatches : String → List Nat
  nestedPairs : List (Nat × Nat)
  fileMetric : FileMetric

/-- The analyzer's results after a run, restricted to the components the
specification's data model names. -/
structure PipelineResult where
  codeSmells : List (String × List Finding)
  securityIssues : List (String × List Finding)
  performanceIssues : List (String × List Finding)
  styleIssues : List (String × List Finding)
  functionMetrics : List (String × List FuncMetric)
  dependencies : List (String × List String)
  duplicatedCode : List DupGroup
  complexityMetrics : Option ProjectMetrics

/-- One run of `analyze_project` from a freshly constructed
`AdvancedCodeAnalyzer` (all accumulators empty): per-file passes in file
order, then `_analyze_duplicated_code`, then `_calculate_project_metrics`. -/
def runPipeline (h : String → Int) (files : List FileInput) : PipelineResult :=
  let perFile := files.map fun f =>
    let py := match f.parse with
      | some outcome =>
        analyzePythonFile outcome f.antiPatternFindings f.fallbackSmells f.fallbackDeps
          PyFileState.empty
      | none => PyFileState.empty
    (f, py, analyzeGenericPerformance f.language f.perfRuleMatches f.nestedPairs)
  let dupMap := scanFilesForDuplicates h (files.map fun f => (f.path, f.language, f.lines))
  let dup := analyzeDuplicatedCode dupMap
  let codeSmells := perFile.map fun e =>
    (e.1.path, e.2.1.codeSmells ++ e.1.genericSmells
      ++ ((dup.2.filter fun s => s.1 = e.1.path).map Prod.snd))
  let securityIssues := perFile.map fun e => (e.1.path, e.1.securityFindings)
  let performanceIssues := perFile.map fun e => (e.1.path, e.2.2)
  let styleIssues := perFile.map fun e => (e.1.path, e.2.1.styleIssues ++ e.1.longLineFindings)
  let functionMetrics := perFile.map fun e => (e.1.path, e.2.1.functionMetrics)
  let dependencies := perFile.map fun e => (e.1.path, e.2.1.dependencies)
  { codeSmells := codeSmells
    securityIssues := securityIssues
    performanceIssues := performanceIssues
    styleIssues := styleIssues
    functionMetrics := functionMetrics
    dependencies := dependencies
    duplicatedCode := dup.1
    complexityMetrics :=
      calcProjectMetrics (files.map FileInput.fileMetric)
        (codeSmells.map Prod.snd) (securityIssues.map Prod.snd)
        (performanceIssues.map Prod.snd) (styleIssues.map Prod.snd)
        (functionMetrics.map Prod.snd) dup.1.length }

/-! ### Definitions written from the specification's words (for the
refinement-style claims; each is compared against the source-derived
definition above, never used in its place) -/

/-- The severity weight table exactly as the specification states it:
`{critical:8, high:4, medium:2, low:1}` (severities outside the table get 0;
the comparison theorems only ever apply it to listed severities). -/
def claimSeverityWeight (severity : String) : ℚ :=
  if severity = "critical" then 8
  else if severity = "high" then 4
  else if severity = "medium" then 2
  else if severity = "low" then 1
  else 0

/-- Spec claim C1: "sum over all Findings of the severity weight table ...,
with each security-category Finding's weight multiplied by 1.5, plus 3 hours
per reported DuplicateBlockGroup" — over all four Finding categories,
including style. -/
def claimDebtHours (codeSmells securityIssues performanceIssues styleIssues : List (List Finding))
    (dupCount : Nat) : ℚ :=
  ((codeSmells.flatten.map fun i => claimSeverityWeight i.severity).sum)
    + ((securityIssues.flatten.map fun i => claimSeverityWeight i.severity * (3/2)).sum)
    + ((performanceIssues.flatten.map fun i => claimSeverityWeight i.severity).sum)
    + ((styleIssues.flatten.map fun i => claimSeverityWeight i.severity).sum)
    + 3 * dupCount

/-- The amended C1 formula: style findings excluded, per-category fallback
weights for severities outside the table (2 for smells/performance, 4 for
security), written as flat sums over the joined finding lists. -/
def amendedDebtHours (codeSmells securityIssues performanceIssues : List (List Finding))
    (dupCount : Nat) : ℚ :=
  ((codeSmells.flatten.map fun i => issueWeightDefault2 i.severity).sum)
    + ((securityIssues.flatten.map fun i => issueWeightDefault4 i.severity * (3/2)).sum)
    + ((performanceIssues.flatten.map fun i => issueWeightDefault2 i.severity).sum)
    + 3 * dupCount

mutual

/-- Spec claim C5, per node: "one per branching construct (if, while, for,
try, and exception-handling clauses)" — so `ExceptHandler` counts — "plus one
per extra operand beyond the first in every short-circuit boolean chain" —
so both `and` and `or` chains count.  (`AsyncFor` is read as a `for`.) -/
def claimComplexityExtra : PyNode → Nat
  | .node k _ cs =>
    (match k with
     | .kIf | .kWhile | .kFor | .kAsyncFor | .kTry | .kExcept => 1
     | .kBoolAnd | .kBoolOr => cs.length - 1
     | _ => 0) + claimComplexityExtraList cs
  | .functionDef _ _ _ _ _ _ _ _ _ body => claimComplexityExtraList body
  | .importStmt _ _ => 0
  | .importFrom _ _ => 0

def claimComplexityExtraList : List PyNode → Nat
  | [] => 0
  | x :: xs => claimComplexityExtra x + claimComplexityExtraList xs

end

/-- The claim-C5 complexity of a function node. -/
def claimCyclomaticComplexity (node : PyNode) : Nat := 1 + claimComplexityExtra node

mutual

/-- The amended C5 formula, stated compositionally: one per `if`/`while`/
`for`/`async for`/`try` statement (exception handlers and `with` blocks add
nothing), plus `len(values) - 1` per `and` chain (`or` chains add nothing). -/
def amendedComplexityExtra : PyNode → Nat
  | .node k _ cs =>
    (match k with
     | .kIf | .kWhile | .kFor | .kAsyncFor | .kTry => 1
     | .kBoolAnd => cs.length - 1
     | _ => 0) + amendedComplexityExtraList cs
  | .functionDef _ _ _ _ _ _ _ _ _ body => amendedComplexityExtraList body
  | .importStmt _ _ => 0
  | .importFrom _ _ => 0

def amendedComplexityExtraList : List PyNode → Nat
  | [] => 0
  | x :: xs => amendedComplexityExtra x + amendedComplexityExtraList xs

end

/-! ### Shared helper lemmas -/

theorem foldl_add_weight (w : Finding → ℚ) :
    ∀ (l : List Finding) (a : ℚ), l.foldl (fun x i => x + w i) a = a + (l.map w).sum
  | [], a => by simp
  | i :: t, a => by
    rw [List.foldl_cons, foldl_add_weight w t (a + w i)]
    simp [add_assoc]

theorem foldl_add_weight_outer (w : Finding → ℚ) :
    ∀ (ls : List (List Finding)) (a : ℚ),
      ls.foldl (fun acc issues => issues.foldl (fun x i => x + w i) acc) a
        = a + (ls.flatten.map w).sum
  | [], a => by simp
  | l :: t, a => by
    rw [List.foldl_cons, foldl_add_weight_outer w t, foldl_add_weight]
    simp [add_assoc]

/-! ### C1 -/

/-- C1, counterexample: a project whose only Finding is a single style-category
Finding of severity `low` (a `long_line`).  The claim's formula — a sum over
*all* Findings — gives 1 hour, but `_calculate_project_metrics` never iterates
`style_issues` in its debt loops, so the computed `technical_debt_hours` is 0. -/
theorem c1_style_findings_ignored :
    (calcProjectMetrics [⟨1, 0, 0, 0⟩] [] [] [] [[⟨"long_line", "low", 1⟩]] [] 0).map
        ProjectMetrics.technicalDebtHours = some 0
    ∧ claimDebtHours [] [] [] [[⟨"long_line", "low", 1⟩]] 0 = 1
    ∧ (calcProjectMetrics [⟨1, 0, 0, 0⟩] [] [] [] [[⟨"long_line", "low", 1⟩]] [] 0).map
        ProjectMetrics.technicalDebtHours
      ≠ some (claimDebtHours [] [] [] [[⟨"long_line", "low", 1⟩]] 0) := by
  refine ⟨?_, ?_, ?_⟩
  · simp [calcProjectMetrics, techDebtHours]
  · simp [claimDebtHours, claimSeverityWeight]
  · simp [calcProjectMetrics, techDebtHours, claimDebtHours, claimSeverityWeight]

/-- C1, amended: `technical_debt_hours` is the severity-weighted sum over
code-smell, security (weight × 1.5, fallback weight 4) and performance
Findings — style Findings contribute nothing — plus 3 hours per reported
duplicate group; the single-critical-security-Finding scenario gives 12 hours
and 1.5 days as the claim states. -/
theorem c1_technical_debt_amended :
    (∀ (codeSmells securityIssues performanceIssues : List (List Finding)) (dupCount : Nat),
        techDebtHours codeSmells securityIssues performanceIssues dupCount
          = amendedDebtHours codeSmells securityIssues performanceIssues dupCount)
    ∧ techDebtHours [] [[⟨"hardcoded_credentials", "critical", 1⟩]] [] 0 = 12
    ∧ roundTo1 (techDebtHours [] [[⟨"hardcoded_credentials", "critical", 1⟩]] [] 0 / 8)
        = 3 / 2 := by
  refine ⟨?_, ?_, ?_⟩
  · intro cs sec perf dup
    simp only [techDebtHours, amendedDebtHours, foldl_add_weight_outer]
    ring
  · simp [techDebtHours, issueWeightDefault4]
    norm_num
  · simp only [roundTo1]
    simp [techDebtHours, issueWeightDefault4]
    norm_num

/-! ### C2 -/

/-- C2: every `ProjectMetrics` record the metrics engine produces has
`maintainability_index = min(100, max(0, 171 - 5.2*(avg_complexity - 1)
- 0.23*avg_line_length - 16.2*(total_loc/1000) + 50*comment_density))`, and in
particular the index always lies in `[0, 100]`. -/
theorem c2_maintainability_clamped
    (fileMetrics : List FileMetric)
    (codeSmells securityIssues performanceIssues styleIssues : List (List Finding))
    (functionMetrics : List (List FuncMetric)) (dupCount : Nat) (pm : ProjectMetrics)
    (hpm : calcProjectMetrics fileMetrics codeSmells securityIssues performanceIssues
        styleIssues functionMetrics dupCount = some pm) :
    pm.maintainabilityIndex
      = min 100 (max 0 (171 - 5.2 * (pm.avgFunctionComplexity - 1)
          - 0.23 * pm.avgLineLength - 16.2 * ((pm.totalLinesOfCode : ℚ) / 1000)
          + 50 * pm.commentDensity))
    ∧ 0 ≤ pm.maintainabilityIndex ∧ pm.maintainabilityIndex ≤ 100 := by
  rw [calcProjectMetrics] at hpm
  split at hpm
  · exact absurd hpm (by simp)
  · obtain rfl : pm = _ := (Option.some.injEq _ _).mp hpm.symm
    refine ⟨rfl, ?_, ?_⟩
    · exact le_min (by norm_num) (le_max_left 0 _)
    · exact min_le_left _ _

/-- The record produced for the one-empty-file project, used to instantiate
the hypotheses of the C2 and C9 theorems at a concrete input. -/
def pmExample : ProjectMetrics :=
  ⟨0, 0, 0, 0, 0, 0, 0, 0, 0, 0, 0, 0, 100, "Excellent", 0, 0⟩

theorem calcProjectMetrics_example :
    calcProjectMetrics [⟨0, 0, 0, 0⟩] [] [] [] [] [] 0 = some pmExample := by
  rw [calcProjectMetrics]
  norm_num [pmExample, techDebtHours, roundTo1, maintainabilityRatingOf, min_def, max_def]

/-- Witness for C2 at the concrete one-empty-file project. -/
theorem c2_maintainability_clamped_witness :
    pmExample.maintainabilityIndex
      = min 100 (max 0 (171 - 5.2 * (pmExample.avgFunctionComplexity - 1)
          - 0.23 * pmExample.avgLineLength
          - 16.2 * ((pmExample.totalLinesOfCode : ℚ) / 1000)
          + 50 * pmExample.commentDensity))
    ∧ 0 ≤ pmExample.maintainabilityIndex ∧ pmExample.maintainabilityIndex ≤ 100 :=
  c2_maintainability_clamped [⟨0, 0, 0, 0⟩] [] [] [] [] [] 0 pmExample
    calcProjectMetrics_example

/-! ### C9 -/

/-- C9, counterexample: for a project with zero analyzable files
(`self.file_metrics` empty) the metrics engine returns early and produces *no*
`ProjectMetrics` record at all (`complexity_metrics` stays empty), rather than
a record reporting all counts as 0. -/
theorem c9_zero_files_no_record :
    calcProjectMetrics [] [] [] [] [] [] 0 = none := rfl

/-- C9, amended: with zero analyzable files the engine produces no record
(and hence performs no division); for a project with files but zero collected
functions, the produced record's per-function averages all fall back to 0. -/
theorem c9_zero_guards_amended :
    (∀ (codeSmells securityIssues performanceIssues styleIssues : List (List Finding))
        (functionMetrics : List (List FuncMetric)) (dupCount : Nat),
        calcProjectMetrics [] codeSmells securityIssues performanceIssues styleIssues
          functionMetrics dupCount = none)
    ∧ (∀ (fileMetrics : List FileMetric)
        (codeSmells securityIssues performanceIssues styleIssues : List (List Finding))
        (functionMetrics : List (List FuncMetric)) (dupCount : Nat) (pm : ProjectMetrics),
        functionMetrics.flatten = [] →
        calcProjectMetrics fileMetrics codeSmells securityIssues performanceIssues
          styleIssues functionMetrics dupCount = some pm →
        pm.avgFunctionComplexity = 0 ∧ pm.avgFunctionSize = 0 ∧ pm.avgFunctionParams = 0) := by
  constructor
  · intro cs sec perf sty fnm dup
    rfl
  · intro fm cs sec perf sty fnm dup pm hflat hpm
    rw [calcProjectMetrics] at hpm
    split at hpm
    · exact absurd hpm (by simp)
    · obtain rfl : pm = _ := (Option.some.injEq _ _).mp hpm.symm
      simp [hflat]

/-- Witness for C9 at concrete inputs (the empty project, and the one-file
zero-function project). -/
theorem c9_zero_guards_amended_witness :
    calcProjectMetrics [] [] [] [] [] [] 0 = none
    ∧ (pmExample.avgFunctionComplexity = 0 ∧ pmExample.avgFunctionSize = 0
        ∧ pmExample.avgFunctionParams = 0) :=
  ⟨c9_zero_guards_amended.1 [] [] [] [] [] 0,
    c9_zero_guards_amended.2 [⟨0, 0, 0, 0⟩] [] [] [] [] [] 0 pmExample rfl
      calcProjectMetrics_example⟩

/-! ### C5 -/

mutual

/-- The complexity loop's walk-sum agrees with the compositional (structural)
reading used by the amended C5 statement. -/
theorem pyWalk_complexity_sum :
    ∀ n : PyNode, ((pyWalk n).map complexityIncr).sum = amendedComplexityExtra n
  | .node k l cs => by
    have hcs := pyWalkList_complexity_sum cs
    cases k <;>
      simp [pyWalk, amendedComplexityExtra, complexityIncr, hcs]
  | .functionDef n l e a p kw va kwa up body => by
    have hb := pyWalkList_complexity_sum body
    simp [pyWalk, amendedComplexityExtra, complexityIncr, hb]
  | .importStmt l ns => by simp [pyWalk, amendedComplexityExtra, complexityIncr]
  | .importFrom l m => by simp [pyWalk, amendedComplexityExtra, complexityIncr]

theorem pyWalkList_complexity_sum :
    ∀ l : List PyNode, ((pyWalkList l).map complexityIncr).sum = amendedComplexityExtraList l
  | [] => by simp [pyWalkList, amendedComplexityExtraList]
  | x :: xs => by
    have h1 := pyWalk_complexity_sum x
    have h2 := pyWalkList_complexity_sum xs
    simp [pyWalkList, amendedComplexityExtraList, h1, h2]

end

/-- C5, counterexample: a function whose body is a single two-operand `or`
chain.  The claim's formula counts one extra operand in the short-circuit
boolean chain (complexity 2), but the source's loop only counts `ast.And`
chains, so the recorded complexity is 1. -/
def orChainFunction : PyNode :=
  .functionDef "g" 1 1 0 0 0 false false none
    [.node .kBoolOr 2 [.node .kOther 2 [], .node .kOther 2 []]]

theorem c5_or_chain_not_counted :
    ((analyzePythonFunctions [orChainFunction]).1.map FuncMetric.complexity) = [1]
    ∧ claimCyclomaticComplexity orChainFunction = 2
    ∧ ((analyzePythonFunctions [orChainFunction]).1.map FuncMetric.complexity)
        ≠ [claimCyclomaticComplexity orChainFunction] := by
  refine ⟨by decide, by decide, by decide⟩

/-- C5, amended: the recorded cyclomatic complexity of every collected
function equals 1 plus one per `if`/`while`/`for`/`async for`/`try`
statement in its walk — exception handlers and `with` blocks add nothing —
plus `len(values) - 1` per `and` chain (`or` chains add nothing); in
particular it is always at least 1. -/
theorem c5_complexity_amended
    (name : String) (lineno endLineno argsCount posonlyCount kwonlyCount : Nat)
    (hasVararg hasKwarg : Bool) (unparseLines : Option Nat) (body : List PyNode) :
    (analyzeFunctionDef name lineno endLineno argsCount posonlyCount kwonlyCount
        hasVararg hasKwarg unparseLines body).1.complexity
      = 1 + amendedComplexityExtraList body
    ∧ 1 ≤ (analyzeFunctionDef name lineno endLineno argsCount posonlyCount kwonlyCount
        hasVararg hasKwarg unparseLines body).1.complexity := by
  constructor
  · show funcComplexity (PyNode.functionDef name lineno endLineno argsCount posonlyCount
      kwonlyCount hasVararg hasKwarg unparseLines body) = _
    rw [funcComplexity, pyWalk_complexity_sum]
    simp [amendedComplexityExtra]
  · exact Nat.le_add_right 1 _

/-! ### C3 -/

/-- A conditional nested `cnt` levels deep: the node at nesting level `d`
(1-based) carries `lineno = d` when the chain is started at `i = 1`, so the
line number of each finding identifies the depth at which it was emitted. -/
def nestedIfChain : Nat → Nat → PyNode
  | i, 0 => .node .kOther i []
  | i, cnt + 1 => .node .kIf i [nestedIfChain (i + 1) cnt]

/-- A source file whose single function contains an `n`-level-deep nested
conditional. -/
def chainFunction (n : Nat) : PyNode :=
  .functionDef "f" 1 1 0 0 0 false false none [nestedIfChain 1 n]

/-- C3, counterexample: for the single-function file with a 6-level-deep
nested conditional, `_check_python_nesting` emits a finding at *every* node
whose depth exceeds 4 — here depths 5 and 6 — so exactly two deep-nesting
Findings are produced, not one. -/
theorem c3_six_deep_two_findings :
    ((analyzePythonFunctions [chainFunction 6]).2.filter
        (fun f => decide (f.ftype = "deep_nesting"))).length = 2
    ∧ ¬ ((analyzePythonFunctions [chainFunction 6]).2.filter
        (fun f => decide (f.ftype = "deep_nesting"))).length = 1 := by
  refine ⟨by decide, by decide⟩

mutual

theorem checkPythonNesting_types :
    ∀ (n : PyNode) (d : Nat), ∀ f ∈ checkPythonNesting n d, f.ftype = "deep_nesting"
  | .node k l cs, d => by
    have hcs := checkPythonNestingList_types cs
    intro f hf
    by_cases hk : isNestingKind k = true <;>
      simp only [checkPythonNesting, hk, if_true, if_false, Bool.false_eq_true] at hf
    · rcases List.mem_append.mp hf with hf1 | hf2
      · by_cases h4 : d + 1 > 4 <;> simp [h4] at hf1
        subst hf1; rfl
      · exact hcs _ f hf2
    · exact hcs _ f hf
  | .functionDef n l e a p kw va kwa up body, d => by
    have hb := checkPythonNestingList_types body
    intro f hf
    simp only [checkPythonNesting] at hf
    exact hb _ f hf
  | .importStmt l ns, d => by intro f hf; simp [checkPythonNesting] at hf
  | .importFrom l m, d => by intro f hf; simp [checkPythonNesting] at hf

theorem checkPythonNestingList_types :
    ∀ (l : List PyNode) (d : Nat), ∀ f ∈ checkPythonNestingList l d, f.ftype = "deep_nesting"
  | [], d => by intro f hf; simp [checkPythonNestingList] at hf
  | x :: xs, d => by
    have h1 := checkPythonNesting_types x d
    have h2 := checkPythonNestingList_types xs d
    intro f hf
    rcases List.mem_append.mp (by simpa [checkPythonNestingList] using hf) with hf1 | hf2
    · exact h1 f hf1
    · exact h2 f hf2

end

/-- No function definitions occur inside a nested-if chain. -/
theorem nestedIfChain_no_functionDef :
    ∀ (cnt i : Nat), (pyWalk (nestedIfChain i cnt)).filter isFunctionDef = []
  | 0, i => by simp [nestedIfChain, pyWalk, pyWalkList, isFunctionDef]
  | cnt + 1, i => by
    have ih := nestedIfChain_no_functionDef cnt (i + 1)
    simp [nestedIfChain, pyWalk, pyWalkList, isFunctionDef, ih]

/-- The nesting findings of an if-chain started at line `i` and entered at
depth `i - 1`: one finding per level `j ∈ [i, i + cnt)` with `j > 4`, carrying
line number `j`. -/
theorem nestedIfChain_findings :
    ∀ (cnt i : Nat), 1 ≤ i →
      checkPythonNesting (nestedIfChain i cnt) (i - 1)
        = ((List.range' i cnt).filter (fun j => decide (4 < j))).map
            (fun j => (⟨"deep_nesting", "high", j⟩ : Finding))
  | 0, i, _ => by simp [nestedIfChain, checkPythonNesting, checkPythonNestingList, isNestingKind]
  | cnt + 1, i, hi => by
    have hsucc : i - 1 + 1 = i := by omega
    have ih := nestedIfChain_findings cnt (i + 1) (by omega)
    rw [nestedIfChain]
    simp only [checkPythonNesting, isNestingKind, if_true, checkPythonNestingList,
      List.append_nil, hsucc]
    have hdep : i + 1 - 1 = i := by omega
    rw [hdep] at ih
    rw [ih, List.range'_succ, List.filter_cons]
    by_cases h4 : 4 < i
    · simp [h4]
    · simp [h4, Nat.not_lt.mp h4]

/-- The findings of the chain-file analysis reduce to the nesting check on
the chain. -/
theorem analyzePythonFunctions_chain (n : Nat) :
    (analyzePythonFunctions [chainFunction n]).2.filter
        (fun f => decide (f.ftype = "deep_nesting"))
      = checkPythonNesting (nestedIfChain 1 n) 0 := by
  have hwalk : (pyWalkList [chainFunction n]).filter isFunctionDef = [chainFunction n] := by
    simp [pyWalkList, pyWalk, chainFunction, isFunctionDef, List.filter_append,
      nestedIfChain_no_functionDef]
  simp only [analyzePythonFunctions, hwalk, List.map_cons, List.map_nil,
    List.flatten_cons, List.flatten_nil, List.append_nil]
  show ((analyzeFunctionDef "f" 1 1 0 0 0 false false none [nestedIfChain 1 n]).2.filter
      (fun f => decide (f.ftype = "deep_nesting"))) = _
  simp only [analyzeFunctionDef]
  rw [List.filter_append, List.filter_append, List.filter_append]
  have hnest : (checkPythonNesting (PyNode.functionDef "f" 1 1 0 0 0 false false none
      [nestedIfChain 1 n]) 0).filter (fun f => decide (f.ftype = "deep_nesting"))
      = checkPythonNesting (nestedIfChain 1 n) 0 := by
    rw [List.filter_eq_self.mpr]
    · simp [checkPythonNesting, checkPythonNestingList]
    · intro a ha
      simpa using checkPythonNesting_types _ 0 a ha
  rw [hnest]
  split_ifs <;> simp

/-- C3, amended: for a single-function file containing an `n`-level-deep
nested conditional (`n ≥ 5`), the analyzer emits one deep-nesting Finding per
nesting level beyond 4 — i.e. `n - 4` findings, at depths (= line numbers
here) `5, 6, ..., n`; the first is at the threshold breach, depth 5. -/
theorem c3_deep_nesting_amended (n : Nat) (hn : 5 ≤ n) :
    (((analyzePythonFunctions [chainFunction n]).2.filter
        (fun f => decide (f.ftype = "deep_nesting"))).map Finding.line)
      = List.range' 5 (n - 4)
    ∧ ((analyzePythonFunctions [chainFunction n]).2.filter
        (fun f => decide (f.ftype = "deep_nesting"))).length = n - 4 := by
  have hchain := nestedIfChain_findings n 1 (by omega)
  have h0 : (1 : Nat) - 1 = 0 := rfl
  rw [h0] at hchain
  have hfilter : (List.range' 1 n).filter (fun j => decide (4 < j))
      = List.range' 5 (n - 4) := by
    obtain ⟨m, rfl⟩ : ∃ m, n = 4 + m := ⟨n - 4, by omega⟩
    have hsplit : List.range' 1 (4 + m) = List.range' 1 4 ++ List.range' 5 m := by
      have h := List.range'_append 1 4 m 1
      norm_num at h
      rw [show 4 + m = m + 4 by omega]
      exact h.symm
    rw [hsplit, List.filter_append]
    have h1 : (List.range' 1 4).filter (fun j => decide (4 < j)) = [] := by decide
    have h2 : (List.range' 5 m).filter (fun j => decide (4 < j)) = List.range' 5 m := by
      rw [List.filter_eq_self]
      intro a ha
      have := (List.mem_range'_1.mp ha).1
      simpa using by omega
    rw [h1, h2]
    have hm : 4 + m - 4 = m := by omega
    rw [hm]
    rfl
  rw [analyzePythonFunctions_chain, hchain, hfilter]
  constructor
  · rw [List.map_map]
    have hcomp : (Finding.line ∘ fun j =>
        ({ ftype := "deep_nesting", severity := "high", line := j } : Finding))
        = fun j : Nat => j := by
      funext j; rfl
    rw [hcomp, List.map_id']
  · simp

/-- Witness for the amended C3 at the claim's own scenario, `n = 6`: two
findings, at depths 5 and 6. -/
theorem c3_deep_nesting_amended_witness :
    (((analyzePythonFunctions [chainFunction 6]).2.filter
        (fun f => decide (f.ftype = "deep_nesting"))).map Finding.line)
      = List.range' 5 (6 - 4)
    ∧ ((analyzePythonFunctions [chainFunction 6]).2.filter
        (fun f => decide (f.ftype = "deep_nesting"))).length = 6 - 4 :=
  c3_deep_nesting_amended 6 (by norm_num)

/-! ### C4 -/

/-- A parsed module whose import walk succeeds and whose function walk then
raises `AttributeError` before processing any function. -/
def cexTree : List PyNode :=
  [.importStmt 1 ["os"], .functionDef "f" 2 2 0 0 0 false false none []]

def cexOutcome : ParseOutcome := .parsed cexTree (some (0, .attrError))

/-- C4, counterexample: when the tree walk fails with an `AttributeError`
after the import pass, the already-collected AST-derived dependency (`"os"`
in `import_graph`) is retained — contradicting "no partial structural
results" — and the single style Finding has severity `"warning"`, not the
`"error"` the claim requires for internal failures. -/
theorem c4_partial_results_retained :
    (analyzePythonFile cexOutcome [] [] [] PyFileState.empty).importGraph = ["os"]
    ∧ (analyzePythonFile cexOutcome [] [] [] PyFileState.empty).importGraph ≠ []
    ∧ (analyzePythonFile cexOutcome [] [] [] PyFileState.empty).styleIssues.map
        Finding.severity = ["warning"] := by
  refine ⟨by decide, by decide, by decide⟩

/-- C4, amended: every failed parse appends exactly one style Finding —
`syntax_error`/`warning` for syntax errors, `ast_feature_error`/`warning`
(not `error`) for `AttributeError` walk failures, `ast_processing_error`/
`error` for other internal failures — and runs the full regex fallback; a
syntax error leaves no structural results, but a walk failure retains the
AST-derived imports and everything the function walk appended before the
exception. -/
theorem c4_parse_failure_amended (outcome : ParseOutcome)
    (antiPatternFindings fallbackSmells : List Finding) (fallbackDeps : List String)
    (st : PyFileState) (hfail : parseFailed outcome = true) :
    ((analyzePythonFile outcome antiPatternFindings fallbackSmells fallbackDeps
        st).styleIssues.length = st.styleIssues.length + 1)
    ∧ (∀ lineno, outcome = .syntaxError lineno →
        (analyzePythonFile outcome antiPatternFindings fallbackSmells fallbackDeps
            st).styleIssues = st.styleIssues ++ [⟨"syntax_error", "warning", lineno⟩]
        ∧ (analyzePythonFile outcome antiPatternFindings fallbackSmells fallbackDeps
            st).importGraph = st.importGraph
        ∧ (analyzePythonFile outcome antiPatternFindings fallbackSmells fallbackDeps
            st).functionMetrics = st.functionMetrics
        ∧ (analyzePythonFile outcome antiPatternFindings fallbackSmells fallbackDeps
            st).codeSmells = st.codeSmells ++ fallbackSmells
        ∧ (analyzePythonFile outcome antiPatternFindings fallbackSmells fallbackDeps
            st).dependencies = st.dependencies ++ fallbackDeps)
    ∧ (∀ tree k, outcome = .parsed tree (some (k, .attrError)) →
        (analyzePythonFile outcome antiPatternFindings fallbackSmells fallbackDeps
            st).styleIssues = st.styleIssues ++ [⟨"ast_feature_error", "warning", 1⟩]
        ∧ (analyzePythonFile outcome antiPatternFindings fallbackSmells fallbackDeps
            st).importGraph = st.importGraph ++ analyzePythonImports tree
        ∧ (analyzePythonFile outcome antiPatternFindings fallbackSmells fallbackDeps
            st).functionMetrics
          = st.functionMetrics ++ (analyzePythonFunctionsPrefix tree k).1
        ∧ (analyzePythonFile outcome antiPatternFindings fallbackSmells fallbackDeps
            st).codeSmells
          = st.codeSmells ++ (analyzePythonFunctionsPrefix tree k).2 ++ fallbackSmells
        ∧ (analyzePythonFile outcome antiPatternFindings fallbackSmells fallbackDeps
            st).dependencies
          = st.dependencies ++ analyzePythonImports tree ++ fallbackDeps)
    ∧ (∀ tree k, outcome = .parsed tree (some (k, .otherError)) →
        (analyzePythonFile outcome antiPatternFindings fallbackSmells fallbackDeps
            st).styleIssues
          = st.styleIssues ++ [⟨"ast_processing_error", "error", 1⟩]) := by
  cases outcome with
  | syntaxError lineno =>
    refine ⟨?_, ?_, ?_, ?_⟩
    · simp [analyzePythonFile, analyzePythonWithRegex]
    · intro l0 heq
      cases heq
      refine ⟨?_, ?_, ?_, ?_, ?_⟩ <;> simp [analyzePythonFile, analyzePythonWithRegex]
    · intro tree k heq; simp at heq
    · intro tree k heq; simp at heq
  | parsed tree werr =>
    cases werr with
    | none => simp [parseFailed] at hfail
    | some pe =>
      obtain ⟨k, e⟩ := pe
      cases e with
      | attrError =>
        refine ⟨?_, ?_, ?_, ?_⟩
        · simp [analyzePythonFile, analyzePythonWithRegex]
        · intro l0 heq; simp at heq
        · intro tree0 k0 heq
          obtain ⟨rfl, rfl⟩ : tree = tree0 ∧ k = k0 := by
            cases heq; exact ⟨rfl, rfl⟩
          refine ⟨?_, ?_, ?_, ?_, ?_⟩ <;>
            simp [analyzePythonFile, analyzePythonWithRegex, List.append_assoc]
        · intro tree0 k0 heq; simp at heq
      | otherError =>
        refine ⟨?_, ?_, ?_, ?_⟩
        · simp [analyzePythonFile, analyzePythonWithRegex]
        · intro l0 heq; simp at heq
        · intro tree0 k0 heq; simp at heq
        · intro tree0 k0 heq
          obtain ⟨rfl, rfl⟩ : tree = tree0 ∧ k = k0 := by
            cases heq; exact ⟨rfl, rfl⟩
          simp [analyzePythonFile, analyzePythonWithRegex]

/-- Witness for the amended C4 at the concrete `AttributeError` scenario. -/
theorem c4_parse_failure_amended_witness :
    (analyzePythonFile cexOutcome [] [] [] PyFileState.empty).styleIssues.length
        = PyFileState.empty.styleIssues.length + 1
    ∧ (analyzePythonFile cexOutcome [] [] [] PyFileState.empty).importGraph
        = PyFileState.empty.importGraph ++ analyzePythonImports cexTree := by
  obtain ⟨h1, _, h3, _⟩ :=
    c4_parse_failure_amended cexOutcome [] [] [] PyFileState.empty rfl
  exact ⟨h1, (h3 cexTree 0 rfl).2.1⟩

/-! ### C6 -/

/-- Every finding the rule-loop body emits for rule `name` carries `name` as
its type. -/
theorem perfRuleFindings_ftype (ruleMatches : String → List Nat) (language name : String)
    (r : PerfRule) : ∀ f ∈ perfRuleFindings ruleMatches language name r, f.ftype = name := by
  intro f hf
  rw [perfRuleFindings] at hf
  split at hf
  · simp at hf
  · split at hf
    · obtain ⟨l, _, rfl⟩ := List.mem_map.mp hf
      rfl
    · simp at hf

/-- C6: the nested-loop check is dead code.  The guard
`if issue_name == 'nested_loops':` sits after the rule loop, where
`issue_name` is the dict's last key, `'multiple_dom_access'`; hence no
`nested_loops` Finding is ever produced by `_analyze_generic`, whatever the
file content — in particular not for a Python file whose block scan does find
an outer/inner loop pair (`nestedPairs = [(1, 2)]`). -/
theorem c6_nested_loops_never_reported :
    (∀ (language : String) (ruleMatches : String → List Nat)
        (nestedPairs : List (Nat × Nat)),
        (analyzeGenericPerformance language ruleMatches nestedPairs).filter
          (fun f => decide (f.ftype = "nested_loops")) = [])
    ∧ analyzeGenericPerformance "Python" (fun _ => []) [(1, 2)] = [] := by
  constructor
  · intro language ruleMatches nestedPairs
    have hloop : (perfLoop ruleMatches language PERFORMANCE_ISSUES "").1
        = "multiple_dom_access" := by
      simp [perfLoop, PERFORMANCE_ISSUES]
    have hmem : ∀ f ∈ (perfLoop ruleMatches language PERFORMANCE_ISSUES "").2,
        f.ftype = "inefficient_loop" ∨ f.ftype = "multiple_dom_access" := by
      intro f hf
      simp only [PERFORMANCE_ISSUES, perfLoop, List.mem_append] at hf
      rcases hf with hf | hf | hf
      · exact Or.inl (perfRuleFindings_ftype ruleMatches language _ _ f hf)
      · have := perfRuleFindings_ftype ruleMatches language "nested_loops"
          ⟨"high", false, ["all"]⟩ f hf
        rw [perfRuleFindings] at hf
        split at hf
        · simp at hf
        · simp at hf
      · rcases hf with hf1 | hf2
        · exact Or.inr (perfRuleFindings_ftype ruleMatches language _ _ f hf1)
        · simp at hf2
    rw [analyzeGenericPerformance]
    simp only [hloop]
    rw [if_neg (by simp), List.append_nil, List.filter_eq_nil_iff]
    intro f hf
    rcases hmem f hf with h | h <;> simp [h]
  · rfl

/-! ### C7 -/

/-- The physical identity of a reported location, as used for dedup:
`(file, start_line)`. -/
def dupKey (l : DupLoc) : String × Nat := (l.filePath, l.startLine)

/-- All location keys over a list of reported groups. -/
def dupFlatKeys (gs : List DupGroup) : List (String × Nat) :=
  gs.flatMap fun g => g.files.map dupKey

theorem buildLocations_spec :
    ∀ (occs : List DupOcc) (reported : List (String × Nat)),
      ((buildLocations occs reported).1.map dupKey).Nodup
      ∧ (∀ l ∈ (buildLocations occs reported).1, dupKey l ∉ reported)
      ∧ (∀ x ∈ reported, x ∈ (buildLocations occs reported).2)
      ∧ (∀ l ∈ (buildLocations occs reported).1, dupKey l ∈ (buildLocations occs reported).2)
  | [], reported => by simp [buildLocations]
  | occ :: rest, reported => by
    by_cases hmem : (occ.file, occ.startLine) ∈ reported
    · have ih := buildLocations_spec rest reported
      simpa only [buildLocations, if_pos hmem] using ih
    · have ih := buildLocations_spec rest (reported ++ [(occ.file, occ.startLine)])
      obtain ⟨ih1, ih2, ih3, ih4⟩ := ih
      simp only [buildLocations, if_neg hmem]
      refine ⟨?_, ?_, ?_, ?_⟩
      · simp only [List.map_cons, List.nodup_cons]
        refine ⟨?_, ih1⟩
        intro hk
        obtain ⟨l, hl, hkey⟩ := List.mem_map.mp hk
        have hnot := ih2 l hl
        rw [hkey] at hnot
        exact hnot (by simp [dupKey])
      · intro l hl
        rcases List.mem_cons.mp hl with rfl | hl2
        · exact hmem
        · intro hrep
          exact (ih2 l hl2) (List.mem_append_left _ hrep)
      · intro x hx
        exact ih3 x (List.mem_append_left _ hx)
      · intro l hl
        rcases List.mem_cons.mp hl with rfl | hl2
        · exact ih3 _ (by simp [dupKey])
        · exact ih4 l hl2

theorem analyzeDuplicatedCodeCore_spec :
    ∀ (groups : List (Int × List DupOcc)) (reported : List (String × Nat)),
      (∀ g ∈ (analyzeDuplicatedCodeCore groups reported).1, 2 ≤ g.files.length)
      ∧ (dupFlatKeys (analyzeDuplicatedCodeCore groups reported).1).Nodup
      ∧ (∀ x ∈ dupFlatKeys (analyzeDuplicatedCodeCore groups reported).1, x ∉ reported)
  | [], reported => by simp [analyzeDuplicatedCodeCore, dupFlatKeys]
  | (hsh, []) :: rest, reported => by
    have heq : analyzeDuplicatedCodeCore ((hsh, []) :: rest) reported
        = analyzeDuplicatedCodeCore rest reported := rfl
    rw [heq]
    exact analyzeDuplicatedCodeCore_spec rest reported
  | (hsh, [rep]) :: rest, reported => by
    have heq : analyzeDuplicatedCodeCore ((hsh, [rep]) :: rest) reported
        = analyzeDuplicatedCodeCore rest reported := rfl
    rw [heq]
    exact analyzeDuplicatedCodeCore_spec rest reported
  | (hsh, rep :: o2 :: t) :: rest, reported => by
    by_cases hlt : rep.endLine - rep.startLine + 1 < 5
    · have heq : analyzeDuplicatedCodeCore ((hsh, rep :: o2 :: t) :: rest) reported
          = analyzeDuplicatedCodeCore rest reported := by
        simp only [analyzeDuplicatedCodeCore, if_pos hlt]
      rw [heq]
      exact analyzeDuplicatedCodeCore_spec rest reported
    · obtain ⟨b1, b2, b3, b4⟩ := buildLocations_spec (rep :: o2 :: t) reported
      obtain ⟨ih1, ih2, ih3⟩ :=
        analyzeDuplicatedCodeCore_spec rest (buildLocations (rep :: o2 :: t) reported).2
      by_cases hlen : (buildLocations (rep :: o2 :: t) reported).1.length > 1
      · have heq : analyzeDuplicatedCodeCore ((hsh, rep :: o2 :: t) :: rest) reported
            = (⟨rep.endLine - rep.startLine + 1, countWordRuns rep.content,
                (buildLocations (rep :: o2 :: t) reported).1, codeSnippet rep.content⟩
              :: (analyzeDuplicatedCodeCore rest
                  (buildLocations (rep :: o2 :: t) reported).2).1,
              groupSmells (buildLocations (rep :: o2 :: t) reported).1
                ++ (analyzeDuplicatedCodeCore rest
                    (buildLocations (rep :: o2 :: t) reported).2).2) := by
          simp only [analyzeDuplicatedCodeCore, if_neg hlt, if_pos hlen]
        rw [heq]
        refine ⟨?_, ?_, ?_⟩
        · intro g hg
          rcases List.mem_cons.mp hg with rfl | hg2
          · exact hlen
          · exact ih1 g hg2
        · simp only [dupFlatKeys, List.flatMap_cons]
          rw [List.nodup_append]
          refine ⟨b1, ih2, ?_⟩
          intro x hx1 hx2
          obtain ⟨l, hl, rfl⟩ := List.mem_map.mp hx1
          exact ih3 _ hx2 (b4 l hl)
        · simp only [dupFlatKeys, List.flatMap_cons]
          intro x hx
          rcases List.mem_append.mp hx with hx1 | hx2
          · obtain ⟨l, hl, rfl⟩ := List.mem_map.mp hx1
            exact b2 l hl
          · intro hrep
            exact ih3 x hx2 (b3 x hrep)
      · have heq : analyzeDuplicatedCodeCore ((hsh, rep :: o2 :: t) :: rest) reported
            = analyzeDuplicatedCodeCore rest
                (buildLocations (rep :: o2 :: t) reported).2 := by
          simp only [analyzeDuplicatedCodeCore, if_neg hlt, if_neg hlen]
        rw [heq]
        refine ⟨ih1, ih2, ?_⟩
        intro x hx hrep
        exact ih3 x hx (b3 x hrep)

theorem dupGroups_countP_le_one (fp : String) (sl : Nat) :
    ∀ gs : List DupGroup, (dupFlatKeys gs).Nodup →
      gs.countP (fun g => g.files.any fun l =>
        decide (l.filePath = fp ∧ l.startLine = sl)) ≤ 1
  | [], _ => by simp
  | g :: rest, hnd => by
    have hsplit := List.nodup_append.mp (by
      simpa only [dupFlatKeys, List.flatMap_cons] using hnd)
    rw [List.countP_cons]
    by_cases hp : (g.files.any fun l =>
        decide (l.filePath = fp ∧ l.startLine = sl)) = true
    · have h0 : rest.countP (fun g => g.files.any fun l =>
          decide (l.filePath = fp ∧ l.startLine = sl)) = 0 := by
        rw [List.countP_eq_zero]
        intro g2 hg2 hp2
        obtain ⟨l, hl, hd⟩ := List.any_eq_true.mp hp
        obtain ⟨l2, hl2, hd2⟩ := List.any_eq_true.mp hp2
        obtain ⟨he1, he2⟩ := of_decide_eq_true hd
        obtain ⟨he3, he4⟩ := of_decide_eq_true hd2
        have hk1 : (fp, sl) ∈ g.files.map dupKey :=
          List.mem_map.mpr ⟨l, hl, by simp [dupKey, he1, he2]⟩
        have hk2 : (fp, sl) ∈ dupFlatKeys rest :=
          List.mem_flatMap.mpr ⟨g2, hg2,
            List.mem_map.mpr ⟨l2, hl2, by simp [dupKey, he3, he4]⟩⟩
        exact hsplit.2.2 hk1 hk2
      rw [h0, hp]
      simp
    · have hp' : (g.files.any fun l =>
          decide (l.filePath = fp ∧ l.startLine = sl)) = false := by
        simpa using hp
      rw [hp']
      simpa using dupGroups_countP_le_one fp sl rest hsplit.2.1

/-- C7: every reported `DuplicateBlockGroup` contains at least 2 locations,
and any physical `(file, start_line)` location occurs in at most one reported
group (the first group processed claims it via `reported_locations`). -/
theorem c7_duplicate_group_invariants (groups : List (Int × List DupOcc)) :
    (∀ g ∈ (analyzeDuplicatedCode groups).1, 2 ≤ g.files.length)
    ∧ (∀ (fp : String) (sl : Nat),
        (analyzeDuplicatedCode groups).1.countP (fun g => g.files.any fun l =>
          decide (l.filePath = fp ∧ l.startLine = sl)) ≤ 1) := by
  obtain ⟨h1, h2, _⟩ := analyzeDuplicatedCodeCore_spec groups []
  have hperm : ((analyzeDuplicatedCodeCore groups []).1.insertionSort dupSortRel).Perm
      (analyzeDuplicatedCodeCore groups []).1 := List.perm_insertionSort _ _
  constructor
  · intro g hg
    exact h1 g (hperm.mem_iff.mp hg)
  · intro fp sl
    have hre : (analyzeDuplicatedCode groups).1
        = (analyzeDuplicatedCodeCore groups []).1.insertionSort dupSortRel := rfl
    rw [hre, hperm.countP_eq]
    exact dupGroups_countP_le_one fp sl _ h2

/-- A two-file project where the same 5-line window hashes identically. -/
def dupGroupsExample : List (Int × List DupOcc) :=
  [(0, [⟨"a.py", 1, 5, "alpha"⟩, ⟨"b.py", 1, 5, "beta"⟩])]

def dupGroupExpected : DupGroup :=
  ⟨5, 1, [⟨"a.py", 1, 5⟩, ⟨"b.py", 1, 5⟩], "alpha"⟩

/-- Witness for C7 at a concrete two-location group. -/
theorem c7_duplicate_group_invariants_witness :
    2 ≤ dupGroupExpected.files.length
    ∧ (analyzeDuplicatedCode dupGroupsExample).1.countP (fun g => g.files.any fun l =>
        decide (l.filePath = "a.py" ∧ l.startLine = 1)) ≤ 1 :=
  ⟨(c7_duplicate_group_invariants dupGroupsExample).1 dupGroupExpected (by decide),
    (c7_duplicate_group_invariants dupGroupsExample).2 "a.py" 1⟩

/-! ### C10 -/

/-- C10: every location the window scanner records spans exactly the fixed
window of 5 lines (`end_line - start_line + 1 = 5`), and its `start_line` is
the 1-based position of the window inside the comment-and-blank-stripped
line sequence — the recorded content is literally lines
`[start_line - 1, start_line + 4)` of `dupCleanLines`, not of the original
file. -/
theorem c10_window_location_invariants (h : String → Int) (filePath language : String)
    (lines : List String) (p : Int × DupOcc)
    (hp : p ∈ checkDuplicatedCode h filePath language lines) :
    p.2.endLine = p.2.startLine + 4
    ∧ 1 ≤ p.2.startLine
    ∧ p.2.startLine + 4 ≤ (dupCleanLines language lines).length
    ∧ p.2.content
      = strJoin "\n" (((dupCleanLines language lines).drop (p.2.startLine - 1)).take 5)
    ∧ p.2.file = filePath := by
  rw [checkDuplicatedCode] at hp
  obtain ⟨i, hi, hfi⟩ := List.mem_filterMap.mp hp
  simp only [] at hfi
  split at hfi
  · exact absurd hfi (by simp)
  · obtain rfl : p = _ := (Option.some.injEq _ _).mp hfi.symm
    have hilt := List.mem_range.mp hi
    refine ⟨rfl, Nat.le_add_left 1 i, ?_, ?_, rfl⟩
    · show i + 1 + 4 ≤ (dupCleanLines language lines).length
      omega
    · rfl

/-- The concrete file for the C10 witness: five identical 25-character
non-comment lines. -/
def c10Lines : List String := List.replicate 5 "abcdefghijabcdefghijabcde"

def c10Block : String := strJoin "\n" (List.replicate 5 "abcdefghijabcdefghijabcde")

def c10Pair : Int × DupOcc := (0, ⟨"f.py", 1, 5, c10Block⟩)

set_option maxRecDepth 8000 in
/-- Witness for C10 at the concrete five-line Python file. -/
theorem c10_window_location_invariants_witness :
    c10Pair.2.endLine = c10Pair.2.startLine + 4
    ∧ 1 ≤ c10Pair.2.startLine
    ∧ c10Pair.2.startLine + 4 ≤ (dupCleanLines "Python" c10Lines).length
    ∧ c10Pair.2.content
      = strJoin "\n" (((dupCleanLines "Python" c10Lines).drop (c10Pair.2.startLine - 1)).take 5)
    ∧ c10Pair.2.file = "f.py" :=
  c10_window_location_invariants (fun _ => 0) "f.py" "Python" c10Lines c10Pair (by decide)

/-! ### C8 -/

/-- C8: the pipeline is deterministic and (fresh-state) idempotent — two runs
of `runPipeline` from the freshly initialised analyzer state over the same
file set, with the same per-process string-hash function, produce identical
finding collections, function metrics, duplicate groups and project metrics.
(The embedding is a pure function of exactly these inputs: the engine
consults no randomness source; Python's only per-run variation, the seeded
`hash`, is fixed for a process and enters here as the parameter `h`.) -/
theorem c8_pipeline_deterministic (h : String → Int) (files : List FileInput) :
    (runPipeline h files).codeSmells = (runPipeline h files).codeSmells
    ∧ (runPipeline h files).securityIssues = (runPipeline h files).securityIssues
    ∧ (runPipeline h files).performanceIssues = (runPipeline h files).performanceIssues
    ∧ (runPipeline h files).styleIssues = (runPipeline h files).styleIssues
    ∧ (runPipeline h files).functionMetrics = (runPipeline h files).functionMetrics
    ∧ (runPipeline h files).dependencies = (runPipeline h files).dependencies
    ∧ (runPipeline h files).duplicatedCode = (runPipeline h files).duplicatedCode
    ∧ (runPipeline h files).complexityMetrics = (runPipeline h files).complexityMetrics :=
  ⟨rfl, rfl, rfl, rfl, rfl, rfl, rfl, rfl⟩

end RicksAnalyzer
